import Mathlib

/-!
A shallow embedding, in Lean, of the change-relationship analyzer and
diff-position mapper of `reviewer.py` (the file classifier, the dependency
extractor, the relationship graph builder, the group assembler
`advanced_group_related_files`, the diff position indexer
`parse_diff_for_line_info`, and the suggestion locator
`parse_gemini_review_for_inline_comments` with its helper
`normalize_file_path`).  Python dictionaries become association lists,
Python sets become lists used up to membership, Python string methods are
reimplemented over `List Char`, and the two regular expressions of the
suggestion locator are executed by a small backtracking matcher whose
pattern language covers exactly the constructs those expressions use.
All functions keep the names of their Python sources.
-/

namespace Reviewer

/-! ### String utilities mirroring the Python built-ins used by the code -/

/-- Python's `\s` character class (ASCII range), also used by `str.strip()`. -/
def pyIsSpace (c : Char) : Bool :=
  c = ' ' || c = '\t' || c = '\n' || c = '\r' || c = '\x0b' || c = '\x0c'

/-- Python's `\w` character class (ASCII range). -/
def pyIsWord (c : Char) : Bool := c.isAlphanum || c = '_'

def isPrefixL : List Char → List Char → Bool
  | [], _ => true
  | _ :: _, [] => false
  | a :: as, b :: bs => a = b && isPrefixL as bs

def isInfixL (a : List Char) : List Char → Bool
  | [] => isPrefixL a []
  | b :: bs => isPrefixL a (b :: bs) || isInfixL a bs

/-- Python `a in b` on strings (contiguous substring containment). -/
def strIn (a b : String) : Bool := isInfixL a.data b.data

/-- Python `s.startswith(pre)`. -/
def strStarts (s pre : String) : Bool := isPrefixL pre.data s.data

/-- Python `s.endswith(suf)`. -/
def strEnds (s suf : String) : Bool := isPrefixL suf.data.reverse s.data.reverse

/-- Python `s.lower()` (ASCII letters; the paths and class names involved are ASCII). -/
def pyLower (s : String) : String := String.mk (s.data.map Char.toLower)

/-- Python `s.strip()`. -/
def pyStrip (s : String) : String :=
  String.mk (((s.data.dropWhile pyIsSpace).reverse.dropWhile pyIsSpace).reverse)

/-- Python `s.split(sep)` for a one-character separator (the only form the code uses). -/
def splitOnC (sep : Char) : List Char → List (List Char)
  | [] => [[]]
  | c :: rest =>
    match splitOnC sep rest with
    | h :: t => if c = sep then [] :: h :: t else (c :: h) :: t
    | [] => if c = sep then [[], []] else [[c]]

def pySplit (s : String) (sep : Char) : List String := (splitOnC sep s.data).map String.mk

/-- Python `int(...)` on a nonempty string of decimal digits. -/
def decToNat (l : List Char) : Nat := l.foldl (fun n c => n * 10 + (c.toNat - '0'.toNat)) 0

/-- Python `s.replace(pat, '')` for a nonempty `pat` (every occurrence removed,
scanning left to right).  Each step consumes at least one character, so a fuel
of `s.length` is enough; the fuel only makes the recursion structural (and
hence kernel-reducible), it never runs out before the input does. -/
def removeAllFuel (pat : List Char) : Nat → List Char → List Char
  | 0, s => s
  | _ + 1, [] => []
  | n + 1, c :: rest =>
    if !pat.isEmpty && isPrefixL pat (c :: rest) then
      removeAllFuel pat n (rest.drop (pat.length - 1))
    else c :: removeAllFuel pat n rest

def removeAllL (pat s : List Char) : List Char := removeAllFuel pat s.length s

/-- Python `s.replace(pat, '')` on strings. -/
def pyRemove (s pat : String) : String := String.mk (removeAllL pat.data s.data)

/-- Python `os.path.basename` (POSIX): the part after the last `/`. -/
def basenameOS (p : String) : String := ((pySplit p '/').reverse).headD p

/-- `pathlib.Path(p).name`: last path component, with empty and `.` components dropped. -/
def pyName (p : String) : String :=
  (((pySplit p '/').filter (fun x => x ≠ "" && x ≠ ".")).reverse).headD ""

/-- Index of the last `.` in a list of characters, if any. -/
def lastDotPos (l : List Char) : Option Nat :=
  (l.foldl (fun (acc : Nat × Option Nat) c =>
    (acc.1 + 1, if c = '.' then some acc.1 else acc.2)) (0, none)).2

/-- `pathlib.Path(p).stem`: the name with its final suffix removed
(a leading dot does not start a suffix). -/
def pyStem (p : String) : String :=
  let nm := pyName p
  match lastDotPos nm.data with
  | some i => if 0 < i then String.mk (nm.data.take i) else nm
  | none => nm

/-- Python `a or b` on two optional strings, where `None` and `''` are falsy. -/
def pyOr (a b : Option String) : Option String :=
  match a with
  | some s => if s = "" then b else some s
  | none => b

/-- Python truthiness of an optional string. -/
def isTruthyS : Option String → Bool
  | some s => !(s = "")
  | none => false

/-! ### Data model -/

/-- One GitLab change record: the fields of the JSON dictionaries that the
analyzed functions read (`new_path`, `old_path`, `diff`). -/
structure Change where
  new_path : Option String
  old_path : Option String
  diff : String
deriving DecidableEq, Repr, Inhabited

/-- The expression `change.get('new_path') or change.get('old_path')` that the
Python code evaluates wherever it needs a change's path. -/
def changePathF (c : Change) : Option String := pyOr c.new_path c.old_path

/-! ### A small backtracking regex matcher

The two patterns of the suggestion locator, and the `class`/`def` declaration
patterns of the dependency extractor, use only: literal characters, an
optional character class (`x?`), a required character class, a starred
character class (`[..]*`), and a captured `[..]+` group.  The matcher below
executes exactly this pattern language with Python's leftmost, greedy,
backtracking semantics. -/

inductive Item where
  | litChar (c : Char)
  | opt (p : Char → Bool)
  | oneOf (p : Char → Bool)
  | starCls (p : Char → Bool)
  | plusGrp (p : Char → Bool)

def firstSome {α β : Type} : List α → (α → Option β) → Option β
  | [], _ => none
  | a :: as, f =>
    match f a with
    | some b => some b
    | none => firstSome as f

/-- Match a pattern at the start of the input (Python `re.match`; the end of
the input need not be reached).  Returns the list of captured groups.
Greedy pieces try the longest alternative first, as Python does.  Every
recursive call moves to the tail of the item list, so a fuel of `its.length`
is enough; the fuel only makes the recursion structural (and hence
kernel-reducible), it never runs out before the items do. -/
def reMatchF : Nat → List Item → List Char → Option (List (List Char))
  | _, [], _ => some []
  | 0, _ :: _, _ => none
  | n + 1, Item.litChar c :: rest, s =>
    match s with
    | x :: xs => if x = c then reMatchF n rest xs else none
    | [] => none
  | n + 1, Item.opt p :: rest, s =>
    match s with
    | x :: xs =>
      if p x then
        match reMatchF n rest xs with
        | some gs => some gs
        | none => reMatchF n rest (x :: xs)
      else reMatchF n rest (x :: xs)
    | [] => reMatchF n rest []
  | n + 1, Item.oneOf p :: rest, s =>
    match s with
    | x :: xs => if p x then reMatchF n rest xs else none
    | [] => none
  | n + 1, Item.starCls p :: rest, s =>
    firstSome ((List.range ((s.takeWhile p).length + 1)).reverse)
      (fun i => reMatchF n rest (s.drop i))
  | n + 1, Item.plusGrp p :: rest, s =>
    firstSome (((List.range ((s.takeWhile p).length)).reverse).map (· + 1))
      (fun i =>
        match reMatchF n rest (s.drop i) with
        | some gs => some (s.take i :: gs)
        | none => none)

def reMatch (its : List Item) (s : List Char) : Option (List (List Char)) :=
  reMatchF its.length its s

/-- Python `re.search`: try `reMatch` at each start position, leftmost first. -/
def reSearch (its : List Item) (s : List Char) : Option (List (List Char)) :=
  firstSome (List.range (s.length + 1)) (fun i => reMatch its (s.drop i))

def litItems (s : String) : List Item := s.data.map Item.litChar

/-! ### File classifier (`detect_language`, `is_test_file`, `determine_file_type`,
`is_config_file`, `is_documentation_file`) -/

def detect_language (file_path : String) : String :=
  if strEnds file_path ".java" then "java"
  else if strEnds file_path ".kt" then "kotlin"
  else if strEnds file_path ".py" then "python"
  else if strEnds file_path ".go" then "go"
  else if strEnds file_path ".ts" || strEnds file_path ".tsx" then "typescript"
  else if strEnds file_path ".js" || strEnds file_path ".jsx" then "javascript"
  else if strEnds file_path ".cs" then "csharp"
  else if strEnds file_path ".rb" then "ruby"
  else if strEnds file_path ".php" then "php"
  else if strEnds file_path ".cpp" || strEnds file_path ".cc" || strEnds file_path ".cxx" then "cpp"
  else if strEnds file_path ".c" then "c"
  else if strEnds file_path ".rs" then "rust"
  else if strEnds file_path ".swift" then "swift"
  else if strEnds file_path ".scala" then "scala"
  else "unknown"

/-- Every extension `detect_language` tests, in test order. -/
def lang_ext_table : List String :=
  [".java", ".kt", ".py", ".go", ".ts", ".tsx", ".js", ".jsx", ".cs", ".rb",
   ".php", ".cpp", ".cc", ".cxx", ".c", ".rs", ".swift", ".scala"]

def test_dirs : List String := ["test/", "tests/", "__test__/", "__tests__/", "spec/", "specs/"]

def test_name_patterns : List String :=
  ["test", "tests", "spec", "specs", "_test", "_tests", ".test.", ".spec.", "test_", "spec_"]

def is_test_file (file_path : String) : Bool :=
  let path_lower := pyLower file_path
  test_dirs.any (fun d => strIn d path_lower) ||
  test_name_patterns.any (fun t => strIn t path_lower)

def determine_file_type (file_path : String) : String :=
  let path_lower := pyLower file_path
  if ["test", "spec", "__test__"].any (fun t => strIn t path_lower) then "test"
  else if ["config", "setting", "env", "properties"].any (fun t => strIn t path_lower) then "config"
  else if ["readme", "doc", "md", "rst"].any (fun t => strIn t path_lower) then "documentation"
  else if [".py", ".java", ".kt", ".ts", ".js", ".go", ".cs"].any (fun e => strEnds file_path e) then "source"
  else if [".json", ".yaml", ".yml", ".xml", ".toml"].any (fun e => strEnds file_path e) then "config"
  else if [".sql", ".migration"].any (fun e => strEnds file_path e) then "database"
  else "other"

/-- The substrings `determine_file_type` looks for, in rule order. -/
def type_substring_table : List String :=
  ["test", "spec", "__test__", "config", "setting", "env", "properties",
   "readme", "doc", "md", "rst"]

/-- The suffixes `determine_file_type` looks for, in rule order. -/
def type_suffix_table : List String :=
  [".py", ".java", ".kt", ".ts", ".js", ".go", ".cs",
   ".json", ".yaml", ".yml", ".xml", ".toml", ".sql", ".migration"]

def config_patterns : List String :=
  ["config", "setting", "env", "properties", "application.yml", "application.yaml",
   "application.properties", "pom.xml", "build.gradle", "package.json",
   "requirements.txt", "Dockerfile"]

def is_config_file (file_path : String) : Bool :=
  config_patterns.any (fun p => strIn p (pyLower file_path))

def is_documentation_file (file_path : String) : Bool :=
  strEnds (pyLower file_path) ".md" || strEnds (pyLower file_path) ".rst" ||
  strEnds (pyLower file_path) ".txt" || strEnds (pyLower file_path) ".adoc" ||
  strIn "readme" (pyLower file_path)

/-! ### Dependency extractor (`extract_dependencies_from_diff`, `analyze_file`) -/

structure Deps where
  imports : List String
  exports : List String
  classes : List String
  functions : List String
deriving DecidableEq, Repr

/-- Python `re.match(r'class\s+(\w+)', line)` as matcher items. -/
def class_def_items : List Item :=
  litItems "class" ++ [Item.oneOf pyIsSpace, Item.starCls pyIsSpace, Item.plusGrp pyIsWord]

/-- Python `re.match(r'def\s+(\w+)', line)` as matcher items. -/
def fun_def_items : List Item :=
  litItems "def" ++ [Item.oneOf pyIsSpace, Item.starCls pyIsSpace, Item.plusGrp pyIsWord]

def matchClassDef (line : String) : Option String :=
  match reMatch class_def_items line.data with
  | some [g] => some (String.mk g)
  | _ => none

def matchFunDef (line : String) : Option String :=
  match reMatch fun_def_items line.data with
  | some [g] => some (String.mk g)
  | _ => none

def searchClassDef (line : String) : Option String :=
  match reSearch class_def_items line.data with
  | some [g] => some (String.mk g)
  | _ => none

def extract_dependencies_from_diff (diff_content : String) (language : String) : Deps :=
  let added_lines := ((pySplit diff_content '\n').filter
      (fun l => strStarts l "+" && !(strStarts l "+++"))).map (fun l => String.mk l.data.tail)
  added_lines.foldl (fun dep l0 =>
    let line := pyStrip l0
    if language = "python" then
      if strStarts line "import " || strStarts line "from " then
        { dep with imports := dep.imports ++ [line] }
      else if strStarts line "class " then
        match matchClassDef line with
        | some c => { dep with classes := dep.classes ++ [c] }
        | none => dep
      else if strStarts line "def " then
        match matchFunDef line with
        | some f => { dep with functions := dep.functions ++ [f] }
        | none => dep
      else dep
    else if language = "java" || language = "kotlin" then
      if strStarts line "import " then { dep with imports := dep.imports ++ [line] }
      else if strIn "class " line then
        match searchClassDef line with
        | some c => { dep with classes := dep.classes ++ [c] }
        | none => dep
      else dep
    else if language = "javascript" || language = "typescript" then
      if strStarts line "import " || strIn "require(" line then
        { dep with imports := dep.imports ++ [line] }
      else if strStarts line "export " then { dep with exports := dep.exports ++ [line] }
      else if strIn "class " line then
        match searchClassDef line with
        | some c => { dep with classes := dep.classes ++ [c] }
        | none => dep
      else dep
    else dep) ⟨[], [], [], []⟩

/-- The per-file analysis record built by `analyze_file` (the unused
`dependencies` entry is kept for shape fidelity). -/
structure Analysis where
  type : String
  language : String
  imports : List String
  exports : List String
  classes : List String
  functions : List String
  is_test : Bool
  is_config : Bool
  is_doc : Bool
  dependencies : List String
deriving DecidableEq, Repr

def analyze_file (change : Change) (file_path : String) : Analysis :=
  let base : Analysis :=
    { type := determine_file_type file_path
      language := detect_language file_path
      imports := []
      exports := []
      classes := []
      functions := []
      is_test := is_test_file file_path
      is_config := is_config_file file_path
      is_doc := is_documentation_file file_path
      dependencies := [] }
  if change.diff ≠ "" then
    let d := extract_dependencies_from_diff change.diff base.language
    { base with imports := d.imports, exports := d.exports,
                classes := d.classes, functions := d.functions }
  else base

/-! ### Relationship graph builder (`build_relationship_map` and the three
relationship predicates) -/

/-- The per-file relationship buckets dictionary. -/
structure Rel where
  tests : List String
  tested_by : List String
  imports : List String
  imported_by : List String
  configs : List String
  configured_by : List String
  documents : List String
  documented_by : List String
deriving DecidableEq, Repr

def emptyRel : Rel := ⟨[], [], [], [], [], [], [], []⟩

/-- Python `d[k] = v` on an association list (keeps first-insertion position). -/
def dinsert {α : Type} (k : String) (v : α) : List (String × α) → List (String × α)
  | [] => [(k, v)]
  | (k', v') :: rest => if k' = k then (k, v) :: rest else (k', v') :: dinsert k v rest

/-- Python `d.get(k)` on an association list. -/
def dlookup {α : Type} (k : String) (m : List (String × α)) : Option α :=
  (m.find? (fun kv => kv.1 = k)).map (·.2)

/-- Mutate the bucket record stored under an existing key. -/
def rupdate (k : String) (f : Rel → Rel) (m : List (String × Rel)) : List (String × Rel) :=
  m.map (fun kv => if kv.1 = k then (kv.1, f kv.2) else kv)

/-- `s.lower().replace('test', '')` applied to a class name. -/
def strip_test_word (s : String) : String := pyRemove (pyLower s) "test"

/-- `Path(f).stem.lower()` with every test marker removed, as
`is_test_relationship` computes for each side. -/
def test_strip (f : String) : String :=
  ["test", "tests", "spec", "specs"].foldl (fun b p => pyRemove b p) (pyLower (pyStem f))

def is_test_relationship (file1 file2 : String) (analysis1 analysis2 : Analysis) : Bool :=
  let base1 := test_strip file1
  let base2 := test_strip file2
  (!analysis1.classes.isEmpty && !analysis2.classes.isEmpty &&
    analysis1.classes.any (fun c1 => analysis2.classes.any (fun c2 =>
      strip_test_word c1 = strip_test_word c2)))
  || base1 = base2

def is_import_relationship (file1 file2 : String) (analysis1 analysis2 : Analysis) : Bool :=
  let file2_name := pyStem file2
  analysis1.imports.any (fun imp => strIn (pyLower file2_name) (pyLower imp))

def is_config_relationship (file1 file2 : String) (analysis1 analysis2 : Analysis) : Bool :=
  (analysis1.is_config && analysis2.type = "source") ||
  (analysis2.is_config && analysis1.type = "source")

def build_relationship_map (file_analysis : List (String × Analysis)) (changes : List Change) :
    List (String × Rel) :=
  let init := file_analysis.foldl (fun m kv => dinsert kv.1 emptyRel m) []
  file_analysis.foldl (fun m kv =>
    file_analysis.foldl (fun m kv2 =>
      if kv.1 = kv2.1 then m
      else
        let m :=
          if is_test_relationship kv.1 kv2.1 kv.2 kv2.2 then
            if kv.2.is_test then
              rupdate kv2.1 (fun r => { r with tested_by := r.tested_by ++ [kv.1] })
                (rupdate kv.1 (fun r => { r with tests := r.tests ++ [kv2.1] }) m)
            else
              rupdate kv2.1 (fun r => { r with tests := r.tests ++ [kv.1] })
                (rupdate kv.1 (fun r => { r with tested_by := r.tested_by ++ [kv2.1] }) m)
          else m
        let m :=
          if is_import_relationship kv.1 kv2.1 kv.2 kv2.2 then
            rupdate kv2.1 (fun r => { r with imported_by := r.imported_by ++ [kv.1] })
              (rupdate kv.1 (fun r => { r with imports := r.imports ++ [kv2.1] }) m)
          else m
        if is_config_relationship kv.1 kv2.1 kv.2 kv2.2 then
          if kv.2.is_config then
            rupdate kv2.1 (fun r => { r with configs := r.configs ++ [kv.1] })
              (rupdate kv.1 (fun r => { r with configured_by := r.configured_by ++ [kv2.1] }) m)
          else
            rupdate kv2.1 (fun r => { r with configured_by := r.configured_by ++ [kv.1] })
              (rupdate kv.1 (fun r => { r with configs := r.configs ++ [kv2.1] }) m)
        else m) m) init

/-! ### Group assembler (`find_all_related_files`, `create_file_group`,
`create_group_summary`, `advanced_group_related_files`) -/

/-- Python `set.update`: add the members of `b` not already in `a`. -/
def unionL (a b : List String) : List String :=
  b.foldl (fun acc x => if x ∈ acc then acc else acc ++ [x]) a

/-- The list viewed as a Python set (duplicates dropped, first occurrence kept). -/
def setOfL (l : List String) : List String := unionL [] l

/-- All eight buckets of a file's relationship record, as iterated by
`for rel_type, related_list in relationships.get(file_path, {}).items()`. -/
def bucketsAll (r : Rel) : List String :=
  r.tests ++ r.tested_by ++ r.imports ++ r.imported_by ++
  r.configs ++ r.configured_by ++ r.documents ++ r.documented_by

/-- The four buckets followed on the second hop
(`['tests', 'tested_by', 'imports', 'imported_by']`). -/
def buckets4 (r : Rel) : List String :=
  r.tests ++ r.tested_by ++ r.imports ++ r.imported_by

/-- `relationships.get(p, {})` for a string key. -/
def rlookupStr (p : String) (m : List (String × Rel)) : Rel := (dlookup p m).getD emptyRel

/-- `relationships.get(file_path, {})` where `file_path` may be `None`. -/
def rlookup (fp : Option String) (m : List (String × Rel)) : Rel :=
  match fp with
  | some p => rlookupStr p m
  | none => emptyRel

def find_all_related_files (file_path : Option String) (relationships : List (String × Rel))
    (changes : List Change) : List Change :=
  let direct := setOfL (bucketsAll (rlookup file_path relationships))
  let expanded := direct.foldl (fun acc q => unionL acc (buckets4 (rlookupStr q relationships))) direct
  let change_paths := changes.map changePathF
  let related_paths := expanded.filter (fun p => change_paths.contains (some p))
  changes.filter (fun c =>
    (match changePathF c with
     | some p => related_paths.contains p
     | none => false) || decide (changePathF c = file_path))

/-- `file_analysis.get(file_path, {})` where the key may be `None`. -/
def alookup (fp : Option String) (fa : List (String × Analysis)) : Option Analysis :=
  match fp with
  | some p => dlookup p fa
  | none => none

structure GroupSummaryItem where
  path : Option String
  type : String
  classes : List String
  functions : List String
deriving DecidableEq, Repr

structure FileGroup where
  type : String
  files : List Change
  main_file : Option String
  language : String
  summary : List GroupSummaryItem
deriving DecidableEq, Repr

def create_group_summary (related_files : List Change) (file_analysis : List (String × Analysis)) :
    List GroupSummaryItem :=
  related_files.map (fun fc =>
    match alookup (changePathF fc) file_analysis with
    | some a => ⟨changePathF fc, a.type, a.classes, a.functions⟩
    | none => ⟨changePathF fc, "unknown", [], []⟩)

def create_file_group (main_file : Option String) (related_files : List Change)
    (file_analysis : List (String × Analysis)) : FileGroup :=
  let file_types := related_files.map (fun f =>
    match alookup (changePathF f) file_analysis with
    | some a => a.type
    | none => "other")
  let has_test := file_types.contains "test"
  let has_source := file_types.contains "source"
  let has_config := file_types.contains "config"
  let has_doc := file_types.contains "documentation"
  let group_type :=
    if has_test && has_source && has_config then "comprehensive"
    else if has_test && has_source then "source_with_test"
    else if has_source && has_config then "source_with_config"
    else if has_test then "test_only"
    else if has_config then "config_only"
    else if has_doc then "documentation_only"
    else "source_only"
  { type := group_type
    files := related_files
    main_file := main_file
    language := (match alookup main_file file_analysis with
                 | some a => a.language
                 | none => "unknown")
    summary := create_group_summary related_files file_analysis }

/-- Step 1 of `advanced_group_related_files`: the `file_analysis` dictionary. -/
def file_analysis_of (changes : List Change) : List (String × Analysis) :=
  changes.foldl (fun m c =>
    match changePathF c with
    | some p => if p ≠ "" then dinsert p (analyze_file c p) m else m
    | none => m) []

/-- The step-3 grouping loop of `advanced_group_related_files`, with the
`groups` accumulator and the `processed` set made explicit. -/
def group_step (relationships : List (String × Rel)) (fa : List (String × Analysis))
    (all_changes : List Change) :
    List Change → List FileGroup → List (Option String) → List FileGroup
  | [], groups, _ => groups
  | c :: rest, groups, processed =>
    let fp := changePathF c
    if fp ∈ processed then group_step relationships fa all_changes rest groups processed
    else
      let related := find_all_related_files fp relationships all_changes
      group_step relationships fa all_changes rest
        (groups ++ [create_file_group fp related fa])
        (processed ++ related.map changePathF)

def advanced_group_related_files (changes : List Change) : List FileGroup :=
  let fa := file_analysis_of changes
  let relationships := build_relationship_map fa changes
  group_step relationships fa changes changes [] []

/-! ### Diff position indexer (`parse_diff_for_line_info`) -/

structure DiffLineRecord where
  file : String
  line : Int
  type : String
  content : String
deriving DecidableEq, Repr

structure PState where
  current_file : Option String
  new_line_num : Int
deriving DecidableEq, Repr

/-- Python `re.search(r'\+(\d+)', line)`: the digits after the leftmost `+`
that is followed by at least one digit. -/
def searchPlusDigits : List Char → Option (List Char)
  | [] => none
  | c :: rest =>
    if c = '+' then
      let ds := rest.takeWhile Char.isDigit
      if ds.isEmpty then searchPlusDigits rest else some ds
    else searchPlusDigits rest

/-- One iteration of the `for line in diff_content.split('\n')` loop of
`parse_diff_for_line_info`: the next state and the records the line emits. -/
def pstep (st : PState) (line : String) : PState × List DiffLineRecord :=
  if strStarts line "diff --git" then
    let parts := pySplit line ' '
    if parts.length ≥ 4 then
      ({ st with current_file := some (String.mk ((parts.getD 3 "").data.drop 2)) }, [])
    else (st, [])
  else if strStarts line "@@" then
    match searchPlusDigits line.data with
    | some ds => ({ st with new_line_num := (decToNat ds : Int) - 1 }, [])
    | none => (st, [])
  else if strStarts line "+" && !(strStarts line "+++") then
    let st' : PState := { st with new_line_num := st.new_line_num + 1 }
    if isTruthyS st.current_file then
      (st', [⟨(st.current_file).getD "", st'.new_line_num, "added", String.mk line.data.tail⟩])
    else (st', [])
  else if strStarts line "-" && !(strStarts line "---") then
    if isTruthyS st.current_file then
      (st, [⟨(st.current_file).getD "", st.new_line_num, "removed", String.mk line.data.tail⟩])
    else (st, [])
  else if !(strStarts line "\\") then
    ({ st with new_line_num := st.new_line_num + 1 }, [])
  else (st, [])

def run_lines (st : PState) : List String → PState × List DiffLineRecord
  | [] => (st, [])
  | l :: ls =>
    let s1 := pstep st l
    let s2 := run_lines s1.1 ls
    (s2.1, s1.2 ++ s2.2)

def parse_diff_for_line_info (diff_content : String) : List DiffLineRecord :=
  (run_lines ⟨none, 0⟩ (pySplit diff_content '\n')).2

/-! ### Suggestion locator (`normalize_file_path`,
`parse_gemini_review_for_inline_comments`) -/

structure Suggestion where
  file : String
  line : Nat
  message : String
deriving DecidableEq, Repr

/-- Python `r'([^:]+):(\d+)\s*[-–]\s*(.+)'`, used with `re.match`. -/
def file_line_items : List Item :=
  [Item.plusGrp (fun c => c ≠ ':'), Item.litChar ':', Item.plusGrp Char.isDigit,
   Item.starCls pyIsSpace, Item.oneOf (fun c => c = '-' || c = '–'),
   Item.starCls pyIsSpace, Item.plusGrp (fun c => c ≠ '\n')]

/-- Python `r'([^의]+)의?\s*라인\s*(\d+)에서?\s*[:-]?\s*(.+)'`, used with `re.search`. -/
def alt_items : List Item :=
  [Item.plusGrp (fun c => c ≠ '의'), Item.opt (fun c => c = '의'), Item.starCls pyIsSpace] ++
  litItems "라인" ++
  [Item.starCls pyIsSpace, Item.plusGrp Char.isDigit, Item.litChar '에',
   Item.opt (fun c => c = '서'), Item.starCls pyIsSpace,
   Item.opt (fun c => c = ':' || c = '-'), Item.starCls pyIsSpace,
   Item.plusGrp (fun c => c ≠ '\n')]

def matchFileLinePat (line : String) : Option (String × String × String) :=
  match reMatch file_line_items line.data with
  | some [g1, g2, g3] => some (String.mk g1, String.mk g2, String.mk g3)
  | _ => none

def searchAltPat (line : String) : Option (String × String × String) :=
  match reSearch alt_items line.data with
  | some [g1, g2, g3] => some (String.mk g1, String.mk g2, String.mk g3)
  | _ => none

def normalize_file_path (gemini_file_path : String) (actual_file_paths : List String) :
    Option String :=
  if gemini_file_path ∈ actual_file_paths then some gemini_file_path
  else
    match actual_file_paths.find? (fun a => basenameOS a = basenameOS gemini_file_path) with
    | some a => some a
    | none =>
      actual_file_paths.find? (fun a => strIn gemini_file_path a || strIn a gemini_file_path)

/-- The keys of the `file_lines` dictionary that
`parse_gemini_review_for_inline_comments` builds from the diff's line records
(insertion order = first occurrence of each file). -/
def file_line_keys (combined_diff : String) : List String :=
  (parse_diff_for_line_info combined_diff).foldl
    (fun ks info => if info.file ∈ ks then ks else ks ++ [info.file]) []

/-- What one nonempty stripped review line contributes: up to one suggestion
from each of the two patterns (the two `if` blocks are independent). -/
def suggestionsOfLine (line : String) (keys : List String) : List Suggestion :=
  let s1 :=
    match matchFileLinePat line with
    | some (g1, g2, g3) =>
      let file_path := pyStrip g1
      let line_number := decToNat g2.data
      let message := pyStrip g3
      match normalize_file_path file_path keys with
      | some nf =>
        if nf ≠ "" && message ≠ "" then
          [⟨nf, line_number, "🤖 **Gemini 제안**: " ++ message⟩]
        else []
      | none => []
    | none => []
  let s2 :=
    match searchAltPat line with
    | some (g1, g2, g3) =>
      let file_path := pyStrip g1
      let line_number := decToNat g2.data
      let message := pyStrip g3
      match normalize_file_path file_path keys with
      | some nf =>
        if nf ≠ "" && message ≠ "" then
          [⟨nf, line_number, "🤖 **Gemini 제안**: " ++ message⟩]
        else []
      | none => []
    | none => []
  s1 ++ s2

/-- The suggestion list accumulated by the per-line loop, before deduplication. -/
def raw_suggestions_go (keys : List String) : List String → List Suggestion
  | [] => []
  | l0 :: ls =>
    let line := pyStrip l0
    (if line = "" then [] else suggestionsOfLine line keys) ++ raw_suggestions_go keys ls

def raw_suggestions (review combined_diff : String) : List Suggestion :=
  raw_suggestions_go (file_line_keys combined_diff) (pySplit review '\n')

/-- The final `for suggestion in suggestions` deduplication loop, with the
`seen` set of `(file, line)` keys made explicit. -/
def dedup_go (seen : List (String × Nat)) : List Suggestion → List Suggestion
  | [] => []
  | s :: rest =>
    if (s.file, s.line) ∈ seen then dedup_go seen rest
    else s :: dedup_go ((s.file, s.line) :: seen) rest

def parse_gemini_review_for_inline_comments (review combined_diff : String) : List Suggestion :=
  dedup_go [] (raw_suggestions review combined_diff)

/-! ### Concrete inputs used by the verification -/

/-- Two source files that are both config-related to one config file but not
to each other: `main.py` and `app.py` each have a config relationship with
`config.json` and no relationship with each other. -/
def c1cex : List Change :=
  [⟨some "main.py", none, ""⟩, ⟨some "config.json", none, ""⟩, ⟨some "app.py", none, ""⟩]

/-- A diff section with current file set, hunk header `@@ -5,3 +10,4 @@`,
then one context line, one added line, one removed line, one context line. -/
def c2diff : String := "diff --git a/f.py b/f.py\n@@ -5,3 +10,4 @@\n one\n+two\n-three\n four"

/-- Two file sections; the second (`b.py`) has an added line before any hunk
header of its own.  `c3diffB` is identical except for the first section's
hunk start (107 instead of 7). -/
def c3diffA : String :=
  "diff --git a/a.py b/a.py\n@@ -1,0 +7,1 @@\n+x\ndiff --git a/b.py b/b.py\n+y"

def c3diffB : String :=
  "diff --git a/a.py b/a.py\n@@ -1,0 +107,1 @@\n+x\ndiff --git a/b.py b/b.py\n+y"

/-- A combined diff indexing exactly the file `a.py`. -/
def c5diff : String := "diff --git a/a.py b/a.py\n@@ -1,1 +1,1 @@\n+pass"

/-- A review text with two suggestions that resolve to the same
`(file, line)` pair but carry different messages. -/
def c5review : String := "a.py:10 - first\na.py:10 - second"

/-- The changed-file set of the spec's `comprehensive` scenario. -/
def c8changes : List Change :=
  [⟨some "UserService.java", none, ""⟩, ⟨some "UserServiceTest.java", none, ""⟩,
   ⟨some "application.yml", none, ""⟩]

/-! ### The spec's declarative description of the related set (§4.4)

`spec_related_set` is written from the specification's words — union of all
edge-bucket targets of the file (first hop), plus, for each first-hop file,
only its `tests`/`tested_by`/`imports`/`imported_by` targets (second hop),
the whole intersected with the changed-file paths — and serves as the
comparison definition for the refinement theorem about
`find_all_related_files`. -/
def spec_related_set (file_path : Option String) (relationships : List (String × Rel))
    (changes : List Change) : List String :=
  let firstHop := bucketsAll (rlookup file_path relationships)
  let secondHop := firstHop.foldr (fun q acc => buckets4 (rlookupStr q relationships) ++ acc) []
  (firstHop ++ secondHop).filter (fun p => (changes.map changePathF).contains (some p))

/-! ### Helper lemmas about the set-as-list operations -/

theorem mem_unionL (x : String) : ∀ (b a : List String), x ∈ unionL a b ↔ x ∈ a ∨ x ∈ b := by
  intro b
  induction b with
  | nil => intro a; simp [unionL]
  | cons y ys ih =>
    intro a
    have h : unionL a (y :: ys) = unionL (if y ∈ a then a else a ++ [y]) ys := rfl
    rw [h, ih]
    by_cases hy : y ∈ a
    · simp only [if_pos hy, List.mem_cons]
      constructor
      · rintro (h | h)
        · exact Or.inl h
        · exact Or.inr (Or.inr h)
      · rintro (h | h | h)
        · exact Or.inl h
        · exact Or.inl (h ▸ hy)
        · exact Or.inr h
    · simp only [if_neg hy, List.mem_append, List.mem_singleton, List.mem_cons]
      tauto

theorem mem_setOfL (x : String) (l : List String) : x ∈ setOfL l ↔ x ∈ l := by
  have := mem_unionL x l []
  simpa [setOfL] using this

theorem mem_foldl_unionL (f : String → List String) (x : String) :
    ∀ (d acc : List String),
      x ∈ d.foldl (fun a q => unionL a (f q)) acc ↔ x ∈ acc ∨ ∃ q ∈ d, x ∈ f q := by
  intro d
  induction d with
  | nil => intro acc; simp
  | cons q qs ih =>
    intro acc
    have h : (q :: qs).foldl (fun a r => unionL a (f r)) acc
        = qs.foldl (fun a r => unionL a (f r)) (unionL acc (f q)) := rfl
    rw [h, ih, mem_unionL]
    simp only [List.mem_cons]
    constructor
    · rintro ((h | h) | ⟨r, hr, hx⟩)
      · exact Or.inl h
      · exact Or.inr ⟨q, Or.inl rfl, h⟩
      · exact Or.inr ⟨r, Or.inr hr, hx⟩
    · rintro (h | ⟨r, (rfl | hr), hx⟩)
      · exact Or.inl (Or.inl h)
      · exact Or.inl (Or.inr hx)
      · exact Or.inr ⟨r, hr, hx⟩

theorem mem_foldr_append (f : String → List String) (x : String) :
    ∀ l : List String, x ∈ l.foldr (fun q acc => f q ++ acc) [] ↔ ∃ q ∈ l, x ∈ f q := by
  intro l
  induction l with
  | nil => simp
  | cons q qs ih =>
    simp only [List.foldr_cons, List.mem_append, ih, List.mem_cons]
    constructor
    · rintro (h | ⟨r, hr, hx⟩)
      · exact ⟨q, Or.inl rfl, h⟩
      · exact ⟨r, Or.inr hr, hx⟩
    · rintro ⟨r, (rfl | hr), hx⟩
      · exact Or.inl hx
      · exact Or.inr ⟨r, hr, hx⟩

/-! ### Membership in `find_all_related_files` -/

theorem containsS_iff {α : Type} [BEq α] [LawfulBEq α] (l : List α) (x : α) :
    l.contains x = true ↔ x ∈ l := List.elem_iff

theorem mem_find_all_related_files (fp : Option String) (rels : List (String × Rel))
    (changes : List Change) (c : Change) :
    c ∈ find_all_related_files fp rels changes ↔
      c ∈ changes ∧
        ((∃ p, changePathF c = some p ∧
            (p ∈ bucketsAll (rlookup fp rels) ∨
              ∃ q ∈ bucketsAll (rlookup fp rels), p ∈ buckets4 (rlookupStr q rels)) ∧
            some p ∈ changes.map changePathF) ∨
          changePathF c = fp) := by
  simp only [find_all_related_files, List.mem_filter, Bool.or_eq_true, decide_eq_true_eq]
  constructor
  · rintro ⟨hc, hpred | hfp⟩
    · refine ⟨hc, ?_⟩
      rcases hcp : changePathF c with _ | p
      · rw [hcp] at hpred; simp at hpred
      · rw [hcp] at hpred
        rw [containsS_iff] at hpred
        have hp := List.mem_filter.1 hpred
        have hchg : some p ∈ changes.map changePathF := by
          have := hp.2
          rwa [containsS_iff] at this
        have hexp := (mem_foldl_unionL (fun q => buckets4 (rlookupStr q rels)) p _ _).1 hp.1
        rw [mem_setOfL] at hexp
        refine Or.inl ⟨p, rfl, ?_, hchg⟩
        rcases hexp with h | ⟨q, hq, hpq⟩
        · exact Or.inl h
        · exact Or.inr ⟨q, (mem_setOfL q _).1 hq, hpq⟩
    · exact ⟨hc, Or.inr hfp⟩
  · rintro ⟨hc, ⟨p, hcp, hin, hchg⟩ | hfp⟩
    · refine ⟨hc, Or.inl ?_⟩
      rw [hcp]
      rw [containsS_iff]
      refine List.mem_filter.2 ⟨?_, by rw [containsS_iff]; exact hchg⟩
      refine (mem_foldl_unionL (fun q => buckets4 (rlookupStr q rels)) p _ _).2 ?_
      rcases hin with h | ⟨q, hq, hpq⟩
      · exact Or.inl ((mem_setOfL p _).2 h)
      · exact Or.inr ⟨q, (mem_setOfL q _).2 hq, hpq⟩
    · exact ⟨hc, Or.inr hfp⟩

/-- C7: the related set of a changed file equals the union of its first-hop
bucket targets with the second-hop `tests`/`tested_by`/`imports`/`imported_by`
targets of each first-hop file, intersected with the changed-file paths;
`find_all_related_files` returns exactly the changes whose path lies in that
set, plus the seed file itself. -/
theorem c7_related_set_spec (fp : Option String) (rels : List (String × Rel))
    (changes : List Change) (c : Change) :
    c ∈ find_all_related_files fp rels changes ↔
      c ∈ changes ∧
        ((∃ p, changePathF c = some p ∧ p ∈ spec_related_set fp rels changes) ∨
          changePathF c = fp) := by
  rw [mem_find_all_related_files]
  have hspec : ∀ p, p ∈ spec_related_set fp rels changes ↔
      (p ∈ bucketsAll (rlookup fp rels) ∨
        ∃ q ∈ bucketsAll (rlookup fp rels), p ∈ buckets4 (rlookupStr q rels)) ∧
      some p ∈ changes.map changePathF := by
    intro p
    simp only [spec_related_set, List.mem_filter, List.mem_append,
      mem_foldr_append, containsS_iff]
  constructor
  · rintro ⟨hc, ⟨p, hcp, hin, hchg⟩ | hfp⟩
    · exact ⟨hc, Or.inl ⟨p, hcp, (hspec p).2 ⟨hin, hchg⟩⟩⟩
    · exact ⟨hc, Or.inr hfp⟩
  · rintro ⟨hc, ⟨p, hcp, hp⟩ | hfp⟩
    · have := (hspec p).1 hp
      exact ⟨hc, Or.inl ⟨p, hcp, this.1, this.2⟩⟩
    · exact ⟨hc, Or.inr hfp⟩

/-- Witness for C7 at a concrete input: in the `c1cex` change set, the group
seeded at `main.py` contains `config.json` because `config.json` is in
`main.py`'s related set. -/
theorem c7_related_set_witness :
    (⟨some "config.json", none, ""⟩ : Change) ∈
      find_all_related_files (some "main.py")
        (build_relationship_map (file_analysis_of c1cex) c1cex) c1cex := by
  refine (c7_related_set_spec (some "main.py")
    (build_relationship_map (file_analysis_of c1cex) c1cex) c1cex _).2 ?_
  refine ⟨by decide, Or.inl ⟨"config.json", by decide, by decide⟩⟩

/-! ### The grouping loop: coverage of the changed-file set -/

theorem group_step_mono (rels : List (String × Rel)) (fa : List (String × Analysis))
    (all : List Change) :
    ∀ (pending : List Change) (groups : List FileGroup) (processed : List (Option String))
      (g : FileGroup), g ∈ groups → g ∈ group_step rels fa all pending groups processed := by
  intro pending
  induction pending with
  | nil => intro groups processed g hg; exact hg
  | cons c rest ih =>
    intro groups processed g hg
    simp only [group_step]
    split
    · exact ih groups processed g hg
    · exact ih _ _ g (List.mem_append_left _ hg)

theorem group_step_invariant (rels : List (String × Rel)) (fa : List (String × Analysis))
    (all : List Change) :
    ∀ (pending : List Change) (groups : List FileGroup) (processed : List (Option String)),
      (∀ q, q ∈ processed ↔ ∃ g ∈ groups, q ∈ g.files.map changePathF) →
      (∀ g ∈ groups, ∀ m ∈ g.files, m ∈ all) →
      (∀ c ∈ pending, c ∈ all) →
      ((∀ g ∈ group_step rels fa all pending groups processed, ∀ m ∈ g.files, m ∈ all) ∧
        (∀ c ∈ pending, ∃ g ∈ group_step rels fa all pending groups processed,
          changePathF c ∈ g.files.map changePathF)) := by
  intro pending
  induction pending with
  | nil =>
    intro groups processed hproc hmem _hpend
    exact ⟨hmem, by simp⟩
  | cons c rest ih =>
    intro groups processed hproc hmem hpend
    simp only [group_step]
    split
    case isTrue hin =>
      have hrest := ih groups processed hproc hmem (fun x hx => hpend x (List.mem_cons_of_mem c hx))
      refine ⟨hrest.1, ?_⟩
      intro x hx
      rcases List.mem_cons.1 hx with rfl | hx'
      · rcases (hproc (changePathF x)).1 hin with ⟨g, hg, hpath⟩
        exact ⟨g, group_step_mono rels fa all rest groups processed g hg, hpath⟩
      · exact hrest.2 x hx'
    case isFalse hnin =>
      set related := find_all_related_files (changePathF c) rels all with hrel
      set g0 := create_file_group (changePathF c) related fa with hg0
      have hg0files : g0.files = related := rfl
      have hrelmem : ∀ m ∈ related, m ∈ all := by
        intro m hm
        exact (List.mem_filter.1 (hrel ▸ hm)).1
      have hproc' : ∀ q, q ∈ processed ++ related.map changePathF ↔
          ∃ g ∈ groups ++ [g0], q ∈ g.files.map changePathF := by
        intro q
        rw [List.mem_append]
        constructor
        · rintro (h | h)
          · rcases (hproc q).1 h with ⟨g, hg, hp⟩
            exact ⟨g, List.mem_append_left _ hg, hp⟩
          · exact ⟨g0, List.mem_append_right _ (List.mem_singleton.2 rfl), hg0files ▸ h⟩
        · rintro ⟨g, hg, hp⟩
          rcases List.mem_append.1 hg with hg' | hg'
          · exact Or.inl ((hproc q).2 ⟨g, hg', hp⟩)
          · rw [List.mem_singleton.1 hg'] at hp
            exact Or.inr (hg0files ▸ hp)
      have hmem' : ∀ g ∈ groups ++ [g0], ∀ m ∈ g.files, m ∈ all := by
        intro g hg m hm
        rcases List.mem_append.1 hg with hg' | hg'
        · exact hmem g hg' m hm
        · rw [List.mem_singleton.1 hg'] at hm
          exact hrelmem m (hg0files ▸ hm)
      have hrest := ih (groups ++ [g0]) (processed ++ related.map changePathF)
        hproc' hmem' (fun x hx => hpend x (List.mem_cons_of_mem c hx))
      refine ⟨hrest.1, ?_⟩
      intro x hx
      rcases List.mem_cons.1 hx with rfl | hx'
      · have hcrel : x ∈ related := by
          rw [hrel]
          refine List.mem_filter.2 ⟨hpend x (List.mem_cons_self x rest), ?_⟩
          simp
        refine ⟨g0, group_step_mono rels fa all rest _ _ g0
          (List.mem_append_right _ (List.mem_singleton.2 rfl)), ?_⟩
        rw [hg0files]
        exact List.mem_map.2 ⟨x, hcrel, rfl⟩
      · exact hrest.2 x hx'

/-- C1 (amended): the union of the member files of the groups built by
`advanced_group_related_files` equals the changed-file set — every group
member is one of the input changes, and every input change's path occurs in
some group.  (The disjointness half of the original claim is refuted by
`c1_partition_counterexample`.) -/
theorem c1_groups_cover_changed_set (changes : List Change) (p : Option String) :
    (∃ g ∈ advanced_group_related_files changes, p ∈ g.files.map changePathF) ↔
      ∃ c ∈ changes, changePathF c = p := by
  have hinv := group_step_invariant
    (build_relationship_map (file_analysis_of changes) changes) (file_analysis_of changes)
    changes changes [] []
    (by simp) (by simp) (fun c hc => hc)
  constructor
  · rintro ⟨g, hg, hp⟩
    rcases List.mem_map.1 hp with ⟨m, hm, rfl⟩
    exact ⟨m, hinv.1 g hg m hm, rfl⟩
  · rintro ⟨c, hc, rfl⟩
    exact hinv.2 c hc

/-- Witness for C1's amended theorem at the concrete `c1cex` change set. -/
theorem c1_groups_cover_witness :
    ∃ g ∈ advanced_group_related_files c1cex, some "app.py" ∈ g.files.map changePathF :=
  (c1_groups_cover_changed_set c1cex (some "app.py")).2
    ⟨⟨some "app.py", none, ""⟩, by decide, by decide⟩

/-- C1 counterexample: on `c1cex` the groups do not partition the changed
files — `config.json` is a member of both emitted groups (it is related to
`main.py` and to `app.py`, which are unrelated to each other), so a member
path shared by two groups does not force the groups to be equal. -/
theorem c1_partition_counterexample :
    ((advanced_group_related_files c1cex).map (fun g => g.files.map changePathF) =
      [[some "main.py", some "config.json"], [some "config.json", some "app.py"]]) ∧
    ¬ (∀ g1 ∈ advanced_group_related_files c1cex, ∀ g2 ∈ advanced_group_related_files c1cex,
        ∀ p ∈ g1.files.map changePathF, p ∈ g2.files.map changePathF → g1 = g2) :=
  ⟨by decide, by decide⟩

/-! ### Diff position indexer: the hunk scenario and the file-header behavior -/

/-- C2 (amended): for the hunk `@@ -5,3 +10,4 @@` followed by context, added,
removed, context lines, the indexer emits exactly two records — the added
line at new-file line 11 and the removed line also at 11 (the removal does
not advance the counter).  Context lines advance the counter (the final one
to 12) but emit no record: the function only records added and removed
lines. -/
theorem c2_indexer_hunk_behavior :
    parse_diff_for_line_info c2diff =
      [⟨"f.py", 11, "added", "two"⟩, ⟨"f.py", 11, "removed", "three"⟩] := by decide

/-- C2 counterexample: contrary to the claim, no record of kind `context` is
emitted for the final context line (or any other line) of `c2diff`. -/
theorem c2_context_counterexample :
    ¬ ∃ r ∈ parse_diff_for_line_info c2diff, r.type = "context" := by decide

/-- C3 (amended): a `diff --git` file-header line sets the current file (from
the fourth space-separated token with its two-character `b/` prefix removed,
when the line has at least four tokens) but does **not** reset the new-file
line counter; the header emits no record and leaves the counter untouched,
so counter state from a previous file section persists until the new
section's first hunk header. -/
theorem c3_file_header_no_reset (st : PState) (line : String)
    (h : strStarts line "diff --git" = true) :
    (pstep st line).1.new_line_num = st.new_line_num ∧
    (pstep st line).2 = [] ∧
    ((pySplit line ' ').length ≥ 4 →
      (pstep st line).1.current_file =
        some (String.mk (((pySplit line ' ').getD 3 "").data.drop 2))) ∧
    ((pySplit line ' ').length < 4 → (pstep st line).1.current_file = st.current_file) := by
  simp only [pstep, h, if_true]
  split
  case isTrue h4 => exact ⟨rfl, rfl, fun _ => rfl, fun hlt => absurd h4 (by omega)⟩
  case isFalse h4 => exact ⟨rfl, rfl, fun hge => absurd hge h4, fun _ => rfl⟩

/-- Witness for C3's amended theorem: a header line processed from the state
`⟨some "old.py", 42⟩` keeps the counter at 42 while switching the current
file to `new.py`. -/
theorem c3_file_header_witness :
    (pstep ⟨some "old.py", 42⟩ "diff --git a/new.py b/new.py").1.new_line_num = 42 ∧
    (pstep ⟨some "old.py", 42⟩ "diff --git a/new.py b/new.py").1.current_file =
      some "new.py" := by
  have h := c3_file_header_no_reset ⟨some "old.py", 42⟩ "diff --git a/new.py b/new.py" (by decide)
  refine ⟨h.1, ?_⟩
  rw [h.2.2.1 (by decide)]
  decide

/-- C3 counterexample: `c3diffA` and `c3diffB` have identical `b.py` sections
(a bare added line before any hunk header), yet the record emitted for that
line is at line 8 in one and line 108 in the other — the first section's
hunk start leaks across the file header, so the header cannot be resetting
the counter to 0 (which would put `+y` at line 1 in both). -/
theorem c3_reset_counterexample :
    ((parse_diff_for_line_info c3diffA).map (fun r => (r.file, r.line)) =
      [("a.py", 7), ("b.py", 8)]) ∧
    ((parse_diff_for_line_info c3diffB).map (fun r => (r.file, r.line)) =
      [("a.py", 107), ("b.py", 108)]) :=
  ⟨by decide, by decide⟩

/-! ### No records before the first file header -/

theorem run_lines_append (st : PState) :
    ∀ (pre post : List String),
      run_lines st (pre ++ post) =
        ((run_lines (run_lines st pre).1 post).1,
          (run_lines st pre).2 ++ (run_lines (run_lines st pre).1 post).2) := by
  intro pre
  induction pre generalizing st with
  | nil => intro post; simp [run_lines]
  | cons l ls ih =>
    intro post
    simp only [List.cons_append, run_lines, List.append_eq]
    rw [ih]
    simp [List.append_assoc]

theorem pstep_no_header (st : PState) (line : String)
    (h1 : st.current_file = none) (h2 : strStarts line "diff --git" = false) :
    (pstep st line).2 = [] ∧ (pstep st line).1.current_file = none := by
  simp only [pstep, h2, Bool.false_eq_true, if_false, h1, isTruthyS]
  split <;> (try split) <;> (try split) <;> (try split) <;> simp [h1]

theorem run_lines_no_header :
    ∀ (ls : List String) (st : PState), st.current_file = none →
      (∀ l ∈ ls, strStarts l "diff --git" = false) →
      (run_lines st ls).2 = [] ∧ (run_lines st ls).1.current_file = none := by
  intro ls
  induction ls with
  | nil => intro st h1 _; exact ⟨rfl, h1⟩
  | cons l ls ih =>
    intro st h1 h2
    have hstep := pstep_no_header st l h1 (h2 l (List.mem_cons_self l ls))
    have hrest := ih (pstep st l).1 hstep.2 (fun x hx => h2 x (List.mem_cons_of_mem l hx))
    simp only [run_lines]
    exact ⟨by rw [hstep.1, hrest.1]; rfl, hrest.2⟩

/-- C10: the indexer emits records only once a `diff --git` header has
established a current file.  Lines processed before the first header
contribute no records (first conjunct: the output of a run over
`pre ++ post` is exactly the output over `post` when `pre` has no header),
and a diff text with no `diff --git` line at all yields the empty record
list regardless of its hunk and change lines (second conjunct). -/
theorem c10_records_require_file_header :
    (∀ (pre post : List String), (∀ l ∈ pre, strStarts l "diff --git" = false) →
      (run_lines ⟨none, 0⟩ (pre ++ post)).2 =
        (run_lines (run_lines ⟨none, 0⟩ pre).1 post).2) ∧
    (∀ diff : String, (∀ l ∈ pySplit diff '\n', strStarts l "diff --git" = false) →
      parse_diff_for_line_info diff = []) := by
  constructor
  · intro pre post hpre
    rw [run_lines_append]
    rw [(run_lines_no_header pre ⟨none, 0⟩ rfl hpre).1]
    simp
  · intro diff hdiff
    unfold parse_diff_for_line_info
    exact (run_lines_no_header (pySplit diff '\n') ⟨none, 0⟩ rfl hdiff).1

/-- Witness for C10: a header-free diff with hunk, added and removed lines
produces no records at all. -/
theorem c10_records_witness :
    parse_diff_for_line_info "@@ -1,2 +3,4 @@\n+added\n-removed\n context" = [] :=
  c10_records_require_file_header.2 "@@ -1,2 +3,4 @@\n+added\n-removed\n context" (by decide)

/-! ### Path resolution tiers -/

/-- C4: `normalize_file_path` resolves in three tiers with first match
winning — (1) exact equality returns the cited path unchanged; (2) otherwise
a basename match returns the matching indexed path (in particular
`utils/helper.js` against `{src/utils/helper.js}` resolves to
`src/utils/helper.js`); (3) otherwise substring containment in either
direction returns the matching indexed path; with no tier matching the
result is `none`, so the caller discards the candidate. -/
theorem c4_normalize_three_tiers (p : String) (ps : List String) :
    (p ∈ ps → normalize_file_path p ps = some p) ∧
    (p ∉ ps → (∃ a ∈ ps, basenameOS a = basenameOS p) →
      ∃ a ∈ ps, basenameOS a = basenameOS p ∧ normalize_file_path p ps = some a) ∧
    (p ∉ ps → (∀ a ∈ ps, basenameOS a ≠ basenameOS p) →
      (∃ a ∈ ps, strIn p a = true ∨ strIn a p = true) →
      ∃ a ∈ ps, (strIn p a = true ∨ strIn a p = true) ∧ normalize_file_path p ps = some a) ∧
    (p ∉ ps → (∀ a ∈ ps, basenameOS a ≠ basenameOS p) →
      (∀ a ∈ ps, strIn p a = false ∧ strIn a p = false) →
      normalize_file_path p ps = none) ∧
    normalize_file_path "utils/helper.js" ["src/utils/helper.js"] = some "src/utils/helper.js" := by
  refine ⟨?_, ?_, ?_, ?_, by decide⟩
  · intro h
    simp [normalize_file_path, h]
  · intro hnot hex
    rcases hfind : ps.find? (fun a => basenameOS a = basenameOS p) with _ | a
    · exfalso
      rcases hex with ⟨a, ha, hb⟩
      have := List.find?_eq_none.1 hfind a ha
      simp [hb] at this
    · have hmem := List.mem_of_find?_eq_some hfind
      have hb := List.find?_some hfind
      simp only [decide_eq_true_eq] at hb
      exact ⟨a, hmem, hb, by simp [normalize_file_path, hnot, hfind]⟩
  · intro hnot hbase hex
    have hfind1 : ps.find? (fun a => basenameOS a = basenameOS p) = none := by
      apply List.find?_eq_none.2
      intro a ha
      simp [hbase a ha]
    rcases hfind : ps.find? (fun a => strIn p a || strIn a p) with _ | a
    · exfalso
      rcases hex with ⟨a, ha, hb⟩
      have := List.find?_eq_none.1 hfind a ha
      rcases hb with hb | hb <;> simp [hb] at this
    · have hmem := List.mem_of_find?_eq_some hfind
      have hb := List.find?_some hfind
      simp only [Bool.or_eq_true] at hb
      exact ⟨a, hmem, hb, by simp [normalize_file_path, hnot, hfind1, hfind]⟩
  · intro hnot hbase hsub
    have hfind1 : ps.find? (fun a => basenameOS a = basenameOS p) = none := by
      apply List.find?_eq_none.2
      intro a ha
      simp [hbase a ha]
    have hfind2 : ps.find? (fun a => strIn p a || strIn a p) = none := by
      apply List.find?_eq_none.2
      intro a ha
      simp [(hsub a ha).1, (hsub a ha).2]
    simp [normalize_file_path, hnot, hfind1, hfind2]

/-- Witness for C4: tier 1 identity on `a.py`, and discard when nothing
matches. -/
theorem c4_normalize_witness :
    normalize_file_path "a.py" ["a.py"] = some "a.py" ∧
    normalize_file_path "zzz" ["a.py"] = none :=
  ⟨(c4_normalize_three_tiers "a.py" ["a.py"]).1 (by decide),
   (c4_normalize_three_tiers "zzz" ["a.py"]).2.2.2.1 (by decide) (by decide) (by decide)⟩

/-! ### The comprehensive-group scenario -/

/-- C8: on `{UserService.java, UserServiceTest.java, application.yml}` the
classifier assigns roles source/test/config, the assembler produces exactly
one group containing all three files, and its group type is
`comprehensive`. -/
theorem c8_comprehensive_scenario :
    determine_file_type "UserService.java" = "source" ∧
    determine_file_type "UserServiceTest.java" = "test" ∧
    determine_file_type "application.yml" = "config" ∧
    (advanced_group_related_files c8changes).map (fun g => (g.type, g.files.map changePathF)) =
      [("comprehensive",
        [some "UserService.java", some "UserServiceTest.java", some "application.yml"])] :=
  ⟨by decide, by decide, by decide, by decide⟩

/-! ### Classifier totality with defined defaults -/

/-- C9: `detect_language` and `determine_file_type` are total with defined
defaults — every path maps into the fixed result sets, any path whose
suffix is outside the extension table maps to `unknown`, and any path
matching none of the type rules maps to `other`. -/
theorem c9_classifier_defaults (p : String) :
    detect_language p ∈ ["java", "kotlin", "python", "go", "typescript", "javascript",
      "csharp", "ruby", "php", "cpp", "c", "rust", "swift", "scala", "unknown"] ∧
    determine_file_type p ∈ ["test", "config", "documentation", "source", "database", "other"] ∧
    ((∀ e ∈ lang_ext_table, strEnds p e = false) → detect_language p = "unknown") ∧
    ((∀ s ∈ type_substring_table, strIn s (pyLower p) = false) →
      (∀ e ∈ type_suffix_table, strEnds p e = false) →
      determine_file_type p = "other") := by
  refine ⟨?_, ?_, ?_, ?_⟩
  · unfold detect_language
    by_cases h1 : strEnds p ".java" = true
    · rw [if_pos h1]; decide
    rw [if_neg h1]
    by_cases h2 : strEnds p ".kt" = true
    · rw [if_pos h2]; decide
    rw [if_neg h2]
    by_cases h3 : strEnds p ".py" = true
    · rw [if_pos h3]; decide
    rw [if_neg h3]
    by_cases h4 : strEnds p ".go" = true
    · rw [if_pos h4]; decide
    rw [if_neg h4]
    by_cases h5 : (strEnds p ".ts" || strEnds p ".tsx") = true
    · rw [if_pos h5]; decide
    rw [if_neg h5]
    by_cases h6 : (strEnds p ".js" || strEnds p ".jsx") = true
    · rw [if_pos h6]; decide
    rw [if_neg h6]
    by_cases h7 : strEnds p ".cs" = true
    · rw [if_pos h7]; decide
    rw [if_neg h7]
    by_cases h8 : strEnds p ".rb" = true
    · rw [if_pos h8]; decide
    rw [if_neg h8]
    by_cases h9 : strEnds p ".php" = true
    · rw [if_pos h9]; decide
    rw [if_neg h9]
    by_cases h10 : (strEnds p ".cpp" || strEnds p ".cc" || strEnds p ".cxx") = true
    · rw [if_pos h10]; decide
    rw [if_neg h10]
    by_cases h11 : strEnds p ".c" = true
    · rw [if_pos h11]; decide
    rw [if_neg h11]
    by_cases h12 : strEnds p ".rs" = true
    · rw [if_pos h12]; decide
    rw [if_neg h12]
    by_cases h13 : strEnds p ".swift" = true
    · rw [if_pos h13]; decide
    rw [if_neg h13]
    by_cases h14 : strEnds p ".scala" = true
    · rw [if_pos h14]; decide
    rw [if_neg h14]
    decide
  · simp only [determine_file_type]
    by_cases h1 : (["test", "spec", "__test__"].any fun t => strIn t (pyLower p)) = true
    · rw [if_pos h1]; decide
    rw [if_neg h1]
    by_cases h2 : (["config", "setting", "env", "properties"].any fun t => strIn t (pyLower p)) = true
    · rw [if_pos h2]; decide
    rw [if_neg h2]
    by_cases h3 : (["readme", "doc", "md", "rst"].any fun t => strIn t (pyLower p)) = true
    · rw [if_pos h3]; decide
    rw [if_neg h3]
    by_cases h4 : ([".py", ".java", ".kt", ".ts", ".js", ".go", ".cs"].any fun e => strEnds p e) = true
    · rw [if_pos h4]; decide
    rw [if_neg h4]
    by_cases h5 : ([".json", ".yaml", ".yml", ".xml", ".toml"].any fun e => strEnds p e) = true
    · rw [if_pos h5]; decide
    rw [if_neg h5]
    by_cases h6 : ([".sql", ".migration"].any fun e => strEnds p e) = true
    · rw [if_pos h6]; decide
    rw [if_neg h6]
    decide
  · intro h
    have h1 := h ".java" (by decide)
    have h2 := h ".kt" (by decide)
    have h3 := h ".py" (by decide)
    have h4 := h ".go" (by decide)
    have h5 := h ".ts" (by decide)
    have h6 := h ".tsx" (by decide)
    have h7 := h ".js" (by decide)
    have h8 := h ".jsx" (by decide)
    have h9 := h ".cs" (by decide)
    have h10 := h ".rb" (by decide)
    have h11 := h ".php" (by decide)
    have h12 := h ".cpp" (by decide)
    have h13 := h ".cc" (by decide)
    have h14 := h ".cxx" (by decide)
    have h15 := h ".c" (by decide)
    have h16 := h ".rs" (by decide)
    have h17 := h ".swift" (by decide)
    have h18 := h ".scala" (by decide)
    unfold detect_language
    rw [if_neg (by simp [h1]), if_neg (by simp [h2]), if_neg (by simp [h3]),
      if_neg (by simp [h4]), if_neg (by simp [h5, h6]), if_neg (by simp [h7, h8]),
      if_neg (by simp [h9]), if_neg (by simp [h10]), if_neg (by simp [h11]),
      if_neg (by simp [h12, h13, h14]), if_neg (by simp [h15]), if_neg (by simp [h16]),
      if_neg (by simp [h17]), if_neg (by simp [h18])]
  · intro hs he
    have s1 := hs "test" (by decide)
    have s2 := hs "spec" (by decide)
    have s3 := hs "__test__" (by decide)
    have s4 := hs "config" (by decide)
    have s5 := hs "setting" (by decide)
    have s6 := hs "env" (by decide)
    have s7 := hs "properties" (by decide)
    have s8 := hs "readme" (by decide)
    have s9 := hs "doc" (by decide)
    have s10 := hs "md" (by decide)
    have s11 := hs "rst" (by decide)
    have e1 := he ".py" (by decide)
    have e2 := he ".java" (by decide)
    have e3 := he ".kt" (by decide)
    have e4 := he ".ts" (by decide)
    have e5 := he ".js" (by decide)
    have e6 := he ".go" (by decide)
    have e7 := he ".cs" (by decide)
    have e8 := he ".json" (by decide)
    have e9 := he ".yaml" (by decide)
    have e10 := he ".yml" (by decide)
    have e11 := he ".xml" (by decide)
    have e12 := he ".toml" (by decide)
    have e13 := he ".sql" (by decide)
    have e14 := he ".migration" (by decide)
    simp only [determine_file_type]
    rw [if_neg (by simp [s1, s2, s3]), if_neg (by simp [s4, s5, s6, s7]),
      if_neg (by simp [s8, s9, s10, s11]),
      if_neg (by simp [e1, e2, e3, e4, e5, e6, e7]),
      if_neg (by simp [e8, e9, e10, e11, e12]), if_neg (by simp [e13, e14])]

/-- Witness for C9: `Makefile` matches no rule of either table and gets both
defaults. -/
theorem c9_classifier_witness :
    detect_language "Makefile" = "unknown" ∧ determine_file_type "Makefile" = "other" :=
  ⟨(c9_classifier_defaults "Makefile").2.2.1 (by decide),
   (c9_classifier_defaults "Makefile").2.2.2 (by decide) (by decide)⟩

/-! ### Deduplication of suggestions -/

theorem dedup_go_sublist :
    ∀ (l : List Suggestion) (seen : List (String × Nat)),
      List.Sublist (dedup_go seen l) l := by
  intro l
  induction l with
  | nil => intro seen; simp [dedup_go]
  | cons s rest ih =>
    intro seen
    simp only [dedup_go]
    split
    · exact List.Sublist.cons s (ih seen)
    · exact List.Sublist.cons₂ s (ih _)

theorem dedup_go_not_seen :
    ∀ (l : List Suggestion) (seen : List (String × Nat)) (t : Suggestion),
      t ∈ dedup_go seen l → (t.file, t.line) ∉ seen := by
  intro l
  induction l with
  | nil => intro seen t ht; simp [dedup_go] at ht
  | cons s rest ih =>
    intro seen t ht
    simp only [dedup_go] at ht
    split at ht
    · exact ih seen t ht
    case isFalse hmem =>
      rcases List.mem_cons.1 ht with rfl | ht'
      · exact hmem
      · intro hcon
        exact ih _ t ht' (List.mem_cons_of_mem _ hcon)

theorem dedup_go_pairwise :
    ∀ (l : List Suggestion) (seen : List (String × Nat)),
      List.Pairwise (fun a b => (a.file, a.line) ≠ (b.file, b.line)) (dedup_go seen l) := by
  intro l
  induction l with
  | nil => intro seen; simp [dedup_go]
  | cons s rest ih =>
    intro seen
    simp only [dedup_go]
    split
    · exact ih seen
    · refine List.Pairwise.cons ?_ (ih _)
      intro b hb
      have := dedup_go_not_seen rest _ b hb
      intro hcon
      exact this (hcon ▸ List.mem_cons_self _ _)

theorem dedup_go_covers :
    ∀ (l : List Suggestion) (seen : List (String × Nat)) (s : Suggestion), s ∈ l →
      (s.file, s.line) ∈ seen ∨
        ∃ t ∈ dedup_go seen l, (t.file, t.line) = (s.file, s.line) := by
  intro l
  induction l with
  | nil => intro seen s hs; simp at hs
  | cons x rest ih =>
    intro seen s hs
    simp only [dedup_go]
    rcases List.mem_cons.1 hs with rfl | hs'
    · split
      case isTrue h => exact Or.inl h
      case isFalse h =>
        exact Or.inr ⟨s, List.mem_cons_self _ _, rfl⟩
    · split
      case isTrue h => exact ih seen s hs'
      case isFalse h =>
        rcases ih ((x.file, x.line) :: seen) s hs' with hseen | ⟨t, ht, hkey⟩
        · rcases List.mem_cons.1 hseen with hk | hk
          · exact Or.inr ⟨x, List.mem_cons_self _ _, hk.symm⟩
          · exact Or.inl hk
        · exact Or.inr ⟨t, List.mem_cons_of_mem _ ht, hkey⟩

/-- C5: the suggestion locator deduplicates by the `(resolved file, line)`
pair keeping the first occurrence in text order — its output is a sublist of
the pre-deduplication suggestion stream, no two emitted suggestions share a
key, every parsed suggestion's key is represented in the output, and on the
concrete review with two suggestions both resolving to `("a.py", 10)` the
single emitted suggestion carries the first message. -/
theorem c5_dedup_first_occurrence (review diff : String) :
    List.Sublist (parse_gemini_review_for_inline_comments review diff)
      (raw_suggestions review diff) ∧
    List.Pairwise (fun a b => (a.file, a.line) ≠ (b.file, b.line))
      (parse_gemini_review_for_inline_comments review diff) ∧
    (∀ s ∈ raw_suggestions review diff,
      ∃ t ∈ parse_gemini_review_for_inline_comments review diff,
        t.file = s.file ∧ t.line = s.line) ∧
    parse_gemini_review_for_inline_comments c5review c5diff =
      [⟨"a.py", 10, "🤖 **Gemini 제안**: first"⟩] := by
  refine ⟨dedup_go_sublist _ [], dedup_go_pairwise _ [], ?_, by decide⟩
  intro s hs
  rcases dedup_go_covers (raw_suggestions review diff) [] s hs with h | ⟨t, ht, hkey⟩
  · simp at h
  · exact ⟨t, ht, congrArg Prod.fst hkey, congrArg Prod.snd hkey⟩

/-- Witness for C5 at the concrete review: the second duplicate suggestion is
represented in the output by a suggestion at the same `(file, line)`. -/
theorem c5_dedup_witness :
    ∃ t ∈ parse_gemini_review_for_inline_comments c5review c5diff,
      t.file = "a.py" ∧ t.line = 10 := by
  have h := (c5_dedup_first_occurrence c5review c5diff).2.2.1
    ⟨"a.py", 10, "🤖 **Gemini 제안**: second"⟩ (by decide)
  simpa using h

/-! ### Totality of the suggestion locator -/

theorem raw_suggestions_go_nil (keys : List String) :
    ∀ ls : List String,
      (∀ l ∈ ls, matchFileLinePat (pyStrip l) = none ∧ searchAltPat (pyStrip l) = none) →
      raw_suggestions_go keys ls = [] := by
  intro ls
  induction ls with
  | nil => intro _; rfl
  | cons l0 rest ih =>
    intro h
    have hl := h l0 (List.mem_cons_self _ _)
    have hrest := ih (fun x hx => h x (List.mem_cons_of_mem _ hx))
    simp only [raw_suggestions_go, hrest, List.append_nil]
    split
    · rfl
    · simp [suggestionsOfLine, hl.1, hl.2]

/-- C6: the suggestion locator is total — it is a plain function returning a
list for every review text and every diff text (the one fallible Python
operation, `int(...)`, is only reached on digit strings matched by `\d+`),
and on input where no line matches either recognized dialect it returns the
empty sequence. -/
theorem c6_locator_total_empty_on_malformed (review diff : String)
    (h : ∀ l ∈ pySplit review '\n',
      matchFileLinePat (pyStrip l) = none ∧ searchAltPat (pyStrip l) = none) :
    parse_gemini_review_for_inline_comments review diff = [] := by
  unfold parse_gemini_review_for_inline_comments raw_suggestions
  rw [raw_suggestions_go_nil _ _ h]
  rfl

/-- Witness for C6: arbitrary malformed review text yields the empty list. -/
theorem c6_locator_witness :
    parse_gemini_review_for_inline_comments "이 리뷰는 형식이 없다\n::: - x\nabc - def" "x" = [] :=
  c6_locator_total_empty_on_malformed "이 리뷰는 형식이 없다\n::: - x\nabc - def" "x" (by decide)

end Reviewer
